import Mathlib

/-!
Verification of the smallsh command interpreter (`src/main.c`) against its
natural-language specification.  The shell's line processing is embedded
shallowly: strings are lists of characters, the `strtok`/`sscanf` based
tokenizer, the `$$` expansion function, the built-in dispatch, the
fork/wait decisions and the non-blocking reap loop are translated into
executable Lean functions.  Crashes of the C code (passing NULL to
`strcmp`/`sscanf`) are made explicit with `Except`.
-/

namespace Smallsh

/-- Strings of the embedding: C character arrays as lists of characters. -/
abbrev Str := List Char

/-- Whitespace in the sense of `sscanf` with the `%s` conversion. -/
def isWs (c : Char) : Bool := c == ' ' || c == '\t' || c == '\n' || c == '\r'

/-- Accumulator loop for `strtok(user_input, " ")`: splits on runs of the
single delimiter character `' '`; the trailing newline of `fgets` stays
inside the final token. -/
def tokenizeAux : Str → Str → List Str
  | [], acc => if acc = [] then [] else [acc.reverse]
  | c :: rest, acc =>
    if c = ' ' then
      if acc = [] then tokenizeAux rest [] else acc.reverse :: tokenizeAux rest []
    else tokenizeAux rest (c :: acc)

/-- `strtok(user_input, " ")` iterated until NULL (main.c lines 126-153). -/
def tokenize (s : Str) : List Str := tokenizeAux s []

/-- `sscanf(tok, "%s", dst)`: skip leading whitespace, read one word;
`none` models a failed conversion, which leaves `dst` untouched. -/
def scanWord (tok : Str) : Option Str :=
  match tok.dropWhile (fun c => isWs c) with
  | [] => none
  | c :: rest => some ((c :: rest).takeWhile (fun d => !isWs d))

/-- `strstr(s, "$$") != NULL` (main.c line 141). -/
def hasDD : Str → Bool
  | [] => false
  | [_] => false
  | c :: c2 :: rest => (c == '$' && c2 == '$') || hasDD (c2 :: rest)

/-- The replacement loop of `replace_double_dollarsigns` (main.c lines
66-78): each non-overlapping occurrence of `$$`, scanned left to right, is
replaced by `p`; every other character is copied unchanged. -/
def replaceDD (p : Str) : Str → Str
  | [] => []
  | [c] => [c]
  | c :: c2 :: rest =>
    if c = '$' ∧ c2 = '$' then p ++ replaceDD p rest
    else c :: replaceDD p (c2 :: rest)

/-- `sprintf(buffer, "%d", pid)` (main.c line 55): the decimal rendering of
the shell's process id. -/
def pidStr (pid : Nat) : Str := (Nat.repr pid).data

/-- The NULL dereferences the C code can perform (`sscanf(NULL, ...)` after
a trailing redirection operator, `strcmp(NULL, "exit")` after a lone `&`). -/
inductive Crash
  | nullDeref
deriving DecidableEq

/-- Parser state of one loop iteration: `command_line` entries collected so
far, `input_file`, `output_file`, and the contents of the persistent `str`
buffer (main.c line 91, declared outside the loop, hence stale data
survives across lines). -/
structure ParseSt where
  args : List Str
  inputFile : Str
  outputFile : Str
  strReg : Str
deriving DecidableEq

/-- The token loop of main.c lines 126-153.  `<` and `>` consume the next
token as a redirection path (NULL token: crash, the C calls
`sscanf(NULL, ...)`); a token containing `$$` is expanded; every other
token is `sscanf`-ed into `str` and appended — when the conversion fails
(whitespace-only token) the stale `str` contents are appended instead,
exactly as the C does. -/
def parseToks (pid : Nat) : List Str → ParseSt → Except Crash ParseSt
  | [], st => .ok st
  | t :: rest, st =>
    if t = ['<'] then
      match rest with
      | [] => .error .nullDeref
      | p :: rest2 =>
        parseToks pid rest2 ⟨st.args, (scanWord p).getD st.inputFile, st.outputFile, st.strReg⟩
    else if t = ['>'] then
      match rest with
      | [] => .error .nullDeref
      | p :: rest2 =>
        parseToks pid rest2 ⟨st.args, st.inputFile, (scanWord p).getD st.outputFile, st.strReg⟩
    else if hasDD t then
      parseToks pid rest ⟨st.args ++ [replaceDD (pidStr pid) ((scanWord t).getD st.strReg)],
        st.inputFile, st.outputFile, (scanWord t).getD st.strReg⟩
    else
      parseToks pid rest ⟨st.args ++ [(scanWord t).getD st.strReg],
        st.inputFile, st.outputFile, (scanWord t).getD st.strReg⟩

/-- One full parse of a raw line (main.c lines 126-158): run the token
loop, then apply the blank-line check `if (user_input[0] == '\n')
command_line[0] = NULL` — note that it only fires when the very first
character of the line is the newline. -/
def parseLine (pid : Nat) (line : Str) (stale : Str) : Except Crash ParseSt :=
  match parseToks pid (tokenize line) ⟨[], [], [], stale⟩ with
  | .error e => .error e
  | .ok st =>
    .ok ⟨if line.head? = some '\n' then [] else st.args, st.inputFile, st.outputFile, st.strReg⟩

/-- glibc `WIFEXITED(s)`: `(s & 0x7f) == 0`. -/
def WIFEXITED (s : Int) : Bool := s.emod 128 == 0

/-- glibc `WEXITSTATUS(s)`: `(s & 0xff00) >> 8`. -/
def WEXITSTATUS (s : Int) : Int := (s.ediv 256).emod 256

/-- What the `status` built-in prints (main.c lines 188-197): the exit
value when `WIFEXITED` holds, otherwise "terminated by signal" with the
RAW stored status (the code prints `child_exit_status`, not `WTERMSIG`). -/
inductive StatusReport
  | exitValue (n : Int)
  | termSignal (n : Int)
deriving DecidableEq

def statusReport (s : Int) : StatusReport :=
  if WIFEXITED s then .exitValue (WEXITSTATUS s) else .termSignal s

/-- `int child_exit_status = -5;` (main.c line 92). -/
def initChildExitStatus : Int := -5

/-- Target of the `cd` built-in (main.c lines 177-186). -/
inductive CdTarget
  | home
  | path (p : Str)
deriving DecidableEq

/-- Parent wait decision (main.c line 252):
`foreground_mode_flag == 1 || background_mode_flag == 0`. -/
def parentWaitsOf (fgFlag : Nat) (bg : Bool) : Bool := (fgFlag == 1) || !bg

/-- Parent prints "background pid is %d" (main.c lines 256-258): reached
only when the wait condition is false and `background_mode_flag == 1`. -/
def reportsBgOf (fgFlag : Nat) (bg : Bool) : Bool := !(fgFlag == 1) && bg

/-- Everything decided at the fork site for an external command. -/
structure SpawnInfo where
  argv : List Str
  inputFile : Str
  outputFile : Str
  rawBackground : Bool
  resetsSIGINT : Bool
  parentWaits : Bool
  reportsBgPid : Bool
deriving DecidableEq

/-- The action one line produces. -/
inductive LineAction
  | noop
  | exitShell (code : Int)
  | cd (t : CdTarget)
  | status (r : StatusReport)
  | spawn (s : SpawnInfo)
deriving DecidableEq

/-- Result of the dispatch region (main.c lines 161-276): the action and
whether control reaches the reap loop at lines 262-275. -/
structure LineResult where
  action : LineAction
  reaperRuns : Bool
deriving DecidableEq

/-- Which actions are followed by the reap loop: it sits at the end of the
non-empty/non-comment branch, so `noop` skips it, and `exit` leaves the
process before reaching it. -/
def reapsAfter : LineAction → Bool
  | .noop => false
  | .exitShell _ => false
  | _ => true

/-- Built-in names compared with `strcmp` (main.c lines 173, 177, 188). -/
def exitName : Str := ['e', 'x', 'i', 't']

def cdName : Str := ['c', 'd']

def statusName : Str := ['s', 't', 'a', 't', 'u', 's']

/-- The `&` check of main.c lines 162-170: if the last `command_line`
entry is `"&"` it is replaced by NULL and `background_mode_flag` is set;
otherwise a NULL terminator is appended and the flag is cleared. -/
def stripBackground (full : List Str) : List Str × Bool :=
  if full.getLast? = some ['&'] then (full.dropLast, true) else (full, false)

/-- main.c lines 172-261: built-in comparison chain, then the fork site.
An empty argument vector after `&` stripping makes the C call
`strcmp(NULL, "exit")` — a crash.  The spawn branch records the child's
SIGINT decision (lines 209-212: reset to default iff
`background_mode_flag == 0`) and the parent's wait/report decision. -/
def runBuiltinOrSpawn (fgFlag : Nat) (last : Int) (inF outF : Str)
    (args2 : List Str) (bg : Bool) : Except Crash LineResult :=
  match args2 with
  | [] => .error .nullDeref
  | c0 :: crest =>
    if c0 = exitName then .ok ⟨.exitShell 0, false⟩
    else if c0 = cdName then
      .ok ⟨.cd (if crest = [] then .home else .path (crest.headD [])), true⟩
    else if c0 = statusName then .ok ⟨.status (statusReport last), true⟩
    else
      .ok ⟨.spawn ⟨c0 :: crest, inF, outF, bg, !bg,
        parentWaitsOf fgFlag bg, reportsBgOf fgFlag bg⟩, true⟩

/-- The whole dispatch region (main.c lines 161-276) on a parsed line:
empty or `#`-leading first argument skips the entire block (including the
reap loop); otherwise the `&` is stripped and the command dispatched. -/
def dispatch (fgFlag : Nat) (last : Int) (p : ParseSt) : Except Crash LineResult :=
  match p.args with
  | [] => .ok ⟨.noop, false⟩
  | a0 :: restArgs =>
    if a0.head? = some '#' then .ok ⟨.noop, false⟩
    else
      runBuiltinOrSpawn fgFlag last p.inputFile p.outputFile
        (stripBackground (a0 :: restArgs)).1 (stripBackground (a0 :: restArgs)).2

/-- One full iteration of the read-dispatch loop on one raw line. -/
def processLine (pid fgFlag : Nat) (last : Int) (stale : Str) (line : Str) :
    Except Crash LineResult :=
  match parseLine pid line stale with
  | .error e => .error e
  | .ok p => dispatch fgFlag last p

/-- Fork result at main.c line 200. -/
inductive ForkOutcome
  | ok (pid : Nat)
  | fail
deriving DecidableEq

/-- What the parent process does after `fork()` (main.c lines 200-260). -/
inductive LaunchOutcome
  | shellExit (code : Int)
  | parentContinues (waited : Bool) (printedBgPid : Bool)
deriving DecidableEq

/-- main.c lines 200-260 in the parent: on fork failure the code runs
`perror` and `_exit(1)` — in the PARENT, so the whole shell terminates;
on success it waits or prints the background pid. -/
def launchParent (fgFlag : Nat) (bg : Bool) (f : ForkOutcome) : LaunchOutcome :=
  match f with
  | .fail => .shellExit 1
  | .ok _ => .parentContinues (parentWaitsOf fgFlag bg) (reportsBgOf fgFlag bg)

/-- The reap loop of main.c lines 262-275: every `waitpid(-1, ...)` hit
stores the reaped child's raw status into the shared `child_exit_status`;
`finished` lists the statuses collected, in collection order. -/
def reapAll : List Int → Int → Int
  | [], cur => cur
  | s :: rest, _ => reapAll rest s

/-- `handle_SIGTSTP` (main.c lines 35-48): toggles
`foreground_mode_flag` between 0 and 1. -/
def handle_SIGTSTP (flag : Nat) : Nat := if flag = 0 then 1 else 0

/-- `int foreground_mode_flag = 0;` (main.c line 22). -/
def initForegroundFlag : Nat := 0

/-! ## Helper lemmas -/

/-- A string without a `$$` occurrence passes through the replacement loop
unchanged. -/
theorem replaceDD_of_no_dd (p : Str) : ∀ s : Str, hasDD s = false → replaceDD p s = s := by
  intro s
  induction s with
  | nil => intro _; rfl
  | cons c t ih =>
    intro h
    cases t with
    | nil => rfl
    | cons d t2 =>
      have h2 : (c == '$' && d == '$') = false ∧ hasDD (d :: t2) = false := by
        have := h
        simp only [hasDD, Bool.or_eq_false_iff] at this
        exact this
      have hne : ¬(c = '$' ∧ d = '$') := by
        intro hcd
        rw [hcd.1, hcd.2] at h2
        simp at h2
      have := ih h2.2
      simp only [replaceDD, if_neg hne, this]

/-- The replacement loop rewrites a `$$` occurrence that follows a clean
(`$$`-free, not `$`-terminated) prefix `a` in place: `a` is copied
verbatim, `p` is inserted where the `$$` stood, and the loop continues on
the remainder. -/
theorem replaceDD_split (p b : Str) :
    ∀ a : Str, hasDD a = false → a.getLast? ≠ some '$' →
      replaceDD p (a ++ '$' :: '$' :: b) = a ++ p ++ replaceDD p b := by
  intro a
  induction a with
  | nil =>
    intro _ _
    simp [replaceDD]
  | cons c t ih =>
    intro ha hlast
    cases t with
    | nil =>
      have hc : c ≠ '$' := by simpa using hlast
      simp [replaceDD, hc]
    | cons d t2 =>
      have h2 : (c == '$' && d == '$') = false ∧ hasDD (d :: t2) = false := by
        have := ha
        simp only [hasDD, Bool.or_eq_false_iff] at this
        exact this
      have hne : ¬(c = '$' ∧ d = '$') := by
        intro hcd
        rw [hcd.1, hcd.2] at h2
        simp at h2
      have hlast2 : (d :: t2).getLast? ≠ some '$' := by
        rw [List.getLast?_cons_cons] at hlast
        exact hlast
      have := ih h2.2 hlast2
      simp only [List.cons_append] at this ⊢
      simp only [replaceDD, if_neg hne, this]

/-- Stripping the trailing `&` entry (main.c lines 162-166). -/
theorem stripBackground_concat (l : List Str) :
    stripBackground (l ++ [['&']]) = (l, true) := by
  simp [stripBackground, List.getLast?_concat]

/-- Cons form of `stripBackground_concat`. -/
theorem stripBackground_cons_concat (a0 : Str) (l : List Str) :
    stripBackground (a0 :: (l ++ [['&']])) = (a0 :: l, true) := by
  have h : a0 :: (l ++ [['&']]) = (a0 :: l) ++ [['&']] := by simp
  rw [h, stripBackground_concat]

/-- A vector not containing a `"&"` entry is left intact with the
background flag cleared (main.c lines 167-170). -/
theorem stripBackground_of_no_amp {l : List Str} (h : ['&'] ∉ l) :
    stripBackground l = (l, false) := by
  unfold stripBackground
  rw [if_neg]
  intro hl
  exact h (List.mem_of_getLast?_eq_some hl)

/-- Dispatch on a non-empty, non-comment argument vector reduces to the
built-in/spawn chain on the `&`-stripped vector. -/
theorem dispatch_cons (fg : Nat) (last : Int) (inF outF sr : Str) (a0 : Str)
    (rest : List Str) (hhash : a0.head? ≠ some '#') :
    dispatch fg last ⟨a0 :: rest, inF, outF, sr⟩ =
      runBuiltinOrSpawn fg last inF outF (stripBackground (a0 :: rest)).1
        (stripBackground (a0 :: rest)).2 := by
  simp only [dispatch]
  rw [if_neg hhash]

/-! ## Claim theorems -/

/-- Claim C1.  The claim fails on the code: `child_exit_status` is
initialized to the raw sentinel `-5`, so before any foreground command the
`status` built-in decodes it as "terminated by signal -5", not as exit
code 0; and the reap loop stores every reaped background child's status
into the same `child_exit_status` variable, so a completed background job
(here with raw status 512) changes what `status` reports (to exit value
2). -/
theorem c1_initial_status_bug :
    processLine 77 0 initChildExitStatus [] (statusName ++ ['\n']) =
      .ok ⟨.status (.termSignal (-5)), true⟩ ∧
    statusReport initChildExitStatus ≠ .exitValue 0 ∧
    reapAll [512] initChildExitStatus = 512 ∧
    statusReport 512 = .exitValue 2 ∧
    statusReport (3 * 256) = .exitValue 3 ∧
    statusReport 11 = .termSignal 11 :=
  ⟨rfl, by decide, rfl, rfl, rfl, rfl⟩

/-- Claim C2, counterexample.  A blank line (and likewise a comment line)
takes the code past the entire `if` block of main.c lines 161-276, so the
Job Reaper at lines 262-275 is NOT reached, refuting "execution still
proceeds to the Job Reaper" for empty/no-op commands. -/
theorem c2_counterexample :
    processLine 9 0 0 [] ['\n'] = .ok ⟨.noop, false⟩ ∧
    processLine 9 0 0 [] ('#' :: ' ' :: 'h' :: 'i' :: ['\n']) = .ok ⟨.noop, false⟩ :=
  ⟨rfl, rfl⟩

/-- Claim C2, amended.  The Job Reaper runs after dispatch exactly for the
actions that return control to the loop: `cd`, `status` and a spawned
external command; for an empty or comment line (noop) the reaper is
skipped, and `exit` leaves the shell before reaching it. -/
theorem c2_reaper_after_dispatch (fg : Nat) (last : Int) (p : ParseSt) (r : LineResult)
    (h : dispatch fg last p = .ok r) : r.reaperRuns = reapsAfter r.action := by
  unfold dispatch runBuiltinOrSpawn at h
  split at h
  · cases h; rfl
  · split at h
    · cases h; rfl
    · split at h
      · simp at h
      · split at h
        · cases h; rfl
        · split at h
          · cases h; rfl
          · split at h
            · cases h; rfl
            · cases h; rfl

/-- Witness for `c2_reaper_after_dispatch` at the empty parsed line. -/
theorem c2_reaper_after_dispatch_witness :
    (LineResult.mk .noop false).reaperRuns = reapsAfter .noop :=
  c2_reaper_after_dispatch 0 0 ⟨[], [], [], []⟩ ⟨.noop, false⟩ rfl

/-- Claim C3.  The claim fails on the code: when `fork()` returns -1 the
PARENT runs `perror` and `_exit(1)` (main.c lines 202-205), so the entire
shell process terminates with code 1 — the failure is not confined to the
single command attempt and the read-dispatch loop does not continue. -/
theorem c3_fork_failure_exits_shell :
    ∀ (fg : Nat) (bg : Bool), launchParent fg bg .fail = .shellExit 1 :=
  fun _ _ => rfl

/-- Claim C7.  The claim fails on the code: the line `&` parses to the
lone argument `"&"`, the `&` check replaces it by NULL, and the code then
calls `strcmp(NULL, "exit")` — a NULL dereference; a line whose final
token is a bare `<` makes the code call `sscanf(NULL, "%s", ...)`.  Both
are crashes (undefined behavior), not a diagnostic plus continued
operation. -/
theorem c7_malformed_input_crashes :
    processLine 5 0 0 [] ('&' :: ['\n']) = .error .nullDeref ∧
    processLine 5 0 0 [] ('l' :: 's' :: ' ' :: ['<']) = .error .nullDeref :=
  ⟨rfl, rfl⟩

/-- Claim C9.  The claim fails on the code for whitespace-only lines: the
blank-line check only tests `user_input[0] == '\n'`, and `sscanf` on the
token `"\n"` converts nothing, leaving the persistent `str` buffer
holding the previous line's token.  After a previous `ls`, the line
consisting of one space dispatches (forks!) the stale `ls` again; only a
line whose first character is the newline is a true no-op. -/
theorem c9_whitespace_line_dispatches_stale :
    processLine 5 0 0 ['l', 's'] (' ' :: ['\n']) =
      .ok ⟨.spawn ⟨[['l', 's']], [], [], false, true, true, false⟩, true⟩ ∧
    processLine 5 0 0 ['l', 's'] ['\n'] = .ok ⟨.noop, false⟩ :=
  ⟨rfl, rfl⟩

/-- Claim C4.  For a dispatched external command whose final argument
entry is the literal `&`: the spawn drops exactly that trailing `&` from
the argument vector, sets the raw background flag, the parent blocks iff
`foreground_mode_flag == 1` (so with foreground-only off it returns to
the prompt without waiting, with it on it waits), and the effective
background status — parent skips the wait and prints the background pid —
equals `runInBackground && !foregroundOnly`. -/
theorem c4_trailing_ampersand (fg : Nat) (last : Int) (inF outF sr : Str)
    (c0 : Str) (crest : List Str)
    (hhash : c0.head? ≠ some '#')
    (hexit : c0 ≠ exitName) (hcd : c0 ≠ cdName) (hstat : c0 ≠ statusName) :
    dispatch fg last ⟨(c0 :: crest) ++ [['&']], inF, outF, sr⟩ =
      .ok ⟨.spawn ⟨c0 :: crest, inF, outF, true, false,
        parentWaitsOf fg true, reportsBgOf fg true⟩, true⟩ ∧
    parentWaitsOf fg true = (fg == 1) ∧
    reportsBgOf fg true = (true && !(fg == 1)) := by
  refine ⟨?_, by simp [parentWaitsOf], by simp [reportsBgOf, Bool.and_comm]⟩
  rw [List.cons_append, dispatch_cons fg last inF outF sr c0 (crest ++ [['&']]) hhash,
    stripBackground_cons_concat]
  simp only [runBuiltinOrSpawn, if_neg hexit, if_neg hcd, if_neg hstat, Bool.not_true]

/-- Witness for `c4_trailing_ampersand`: the line `ls &` with
foreground-only mode off. -/
theorem c4_trailing_ampersand_witness :
    dispatch 0 0 ⟨[['l', 's'], ['&']], [], [], []⟩ =
      .ok ⟨.spawn ⟨[['l', 's']], [], [], true, false,
        parentWaitsOf 0 true, reportsBgOf 0 true⟩, true⟩ ∧
    parentWaitsOf 0 true = (0 == 1) ∧
    reportsBgOf 0 true = (true && !(0 == 1)) :=
  c4_trailing_ampersand 0 0 [] [] [] ['l', 's'] []
    (by decide) (by decide) (by decide) (by decide)

/-- Claim C5, counterexample.  With foreground-only mode on (flag 1) the
line `ls &` spawns a child the parent WAITS for — an effectively
foreground command — yet the child does not reset SIGINT to default
(`resetsSIGINT = false`): the child's test at main.c line 209 uses the raw
`background_mode_flag`, not the effective foreground status, refuting the
claim for `&`-marked commands forced foreground. -/
theorem c5_counterexample :
    processLine 7 1 0 [] ('l' :: 's' :: ' ' :: '&' :: ['\n']) =
      .ok ⟨.spawn ⟨[['l', 's']], [], [], true, false, true, false⟩, true⟩ :=
  rfl

/-- Claim C5, amended.  Every spawned child restores SIGINT to default
behavior iff the command line did NOT end in `&` (raw
`background_mode_flag` clear), regardless of foreground-only mode; in
particular a `&`-marked command forced foreground by foreground-only mode
keeps SIGINT ignored. -/
theorem c5_sigint_follows_raw_flag (fg : Nat) (last : Int) (p : ParseSt)
    (s : SpawnInfo) (r : Bool)
    (h : dispatch fg last p = .ok ⟨.spawn s, r⟩) :
    s.resetsSIGINT = !s.rawBackground := by
  unfold dispatch runBuiltinOrSpawn at h
  split at h
  · simp at h
  · split at h
    · simp at h
    · split at h
      · simp at h
      · split at h
        · simp at h
        · split at h
          · simp at h
          · split at h
            · simp at h
            · simp only [Except.ok.injEq, LineResult.mk.injEq, LineAction.spawn.injEq] at h
              cases h.1
              rfl

/-- Witness for `c5_sigint_follows_raw_flag` at the parsed line `ls`. -/
theorem c5_sigint_follows_raw_flag_witness :
    (SpawnInfo.mk [['l', 's']] [] [] false true true false).resetsSIGINT =
      !(SpawnInfo.mk [['l', 's']] [] [] false true true false).rawBackground :=
  c5_sigint_follows_raw_flag 0 0 ⟨[['l', 's']], [], [], []⟩ _ true rfl

/-- Claim C6.  Every non-overlapping `$$` occurrence is replaced in place
by the decimal process id: a `$$` occurrence after a clean prefix `a`
(no `$$` inside, not ending in `$`) becomes the pid text with all
surrounding characters of the token preserved in order, and the loop
continues identically on the remainder; a remainder without further
occurrences is preserved verbatim. -/
theorem c6_dollar_expansion (pid : Nat) (a b : Str)
    (ha : hasDD a = false) (hlast : a.getLast? ≠ some '$') :
    replaceDD (pidStr pid) (a ++ '$' :: '$' :: b) =
      a ++ pidStr pid ++ replaceDD (pidStr pid) b ∧
    (hasDD b = false →
      replaceDD (pidStr pid) (a ++ '$' :: '$' :: b) = a ++ pidStr pid ++ b) := by
  refine ⟨replaceDD_split (pidStr pid) b a ha hlast, fun hb => ?_⟩
  rw [replaceDD_split (pidStr pid) b a ha hlast, replaceDD_of_no_dd (pidStr pid) b hb]

/-- Witness for `c6_dollar_expansion`: the token `id$$log` with pid 1234
expands to `id1234log`. -/
theorem c6_dollar_expansion_witness :
    replaceDD (pidStr 1234) (['i', 'd'] ++ '$' :: '$' :: ['l', 'o', 'g']) =
      ['i', 'd'] ++ pidStr 1234 ++ ['l', 'o', 'g'] :=
  (c6_dollar_expansion 1234 ['i', 'd'] ['l', 'o', 'g'] (by decide) (by decide)).2 (by decide)

/-- Claim C8.  `handle_SIGTSTP` toggles `foreground_mode_flag` between
exactly the two states 0 and 1; from either reachable state an even
number of deliveries restores the original value, and the `&`-handling
decisions (parent wait, background-pid report) computed from the flag are
then identical. -/
theorem c8_tstp_toggle_involution (n k : Nat) (h : n = 0 ∨ n = 1) :
    handle_SIGTSTP^[2 * k] n = n ∧
    ∀ bg : Bool, parentWaitsOf (handle_SIGTSTP^[2 * k] n) bg = parentWaitsOf n bg ∧
      reportsBgOf (handle_SIGTSTP^[2 * k] n) bg = reportsBgOf n bg := by
  have key : handle_SIGTSTP^[2 * k] n = n := by
    induction k with
    | zero => simp
    | succ m ih =>
      have h2 : 2 * (m + 1) = 2 * m + 2 := by ring
      rw [h2, Function.iterate_add_apply]
      have h3 : handle_SIGTSTP^[2] n = n := by
        rcases h with rfl | rfl <;> rfl
      rw [h3, ih]
  exact ⟨key, fun bg => by rw [key]; exact ⟨rfl, rfl⟩⟩

/-- Witness for `c8_tstp_toggle_involution`: four deliveries from state 1. -/
theorem c8_tstp_toggle_involution_witness :
    handle_SIGTSTP^[2 * 2] 1 = 1 ∧
    ∀ bg : Bool, parentWaitsOf (handle_SIGTSTP^[2 * 2] 1) bg = parentWaitsOf 1 bg ∧
      reportsBgOf (handle_SIGTSTP^[2 * 2] 1) bg = reportsBgOf 1 bg :=
  c8_tstp_toggle_involution 1 2 (Or.inr rfl)

/-- Claim C10.  A trailing `&` on a built-in is stripped and has no effect
on the built-in's execution: dispatch of `name args & ` equals dispatch of
`name args` for `exit`, `cd` and `status` (all in-process, no spawn), and
in particular `exit &` terminates the shell immediately with exit code 0. -/
theorem c10_builtin_trailing_ampersand (fg : Nat) (last : Int) (inF outF sr : Str)
    (name : Str) (rest : List Str)
    (hb : name = exitName ∨ name = cdName ∨ name = statusName)
    (hamp : ['&'] ∉ name :: rest) :
    dispatch fg last ⟨(name :: rest) ++ [['&']], inF, outF, sr⟩ =
      dispatch fg last ⟨name :: rest, inF, outF, sr⟩ ∧
    dispatch fg last ⟨[exitName, ['&']], inF, outF, sr⟩ = .ok ⟨.exitShell 0, false⟩ := by
  have hhash : name.head? ≠ some '#' := by
    rcases hb with rfl | rfl | rfl <;> decide
  constructor
  · rw [List.cons_append, dispatch_cons fg last inF outF sr name (rest ++ [['&']]) hhash,
      dispatch_cons fg last inF outF sr name rest hhash,
      stripBackground_cons_concat, stripBackground_of_no_amp hamp]
    rcases hb with rfl | rfl | rfl <;>
      simp [runBuiltinOrSpawn, exitName, cdName, statusName]
  · rfl

/-- Witness for `c10_builtin_trailing_ampersand`: `cd &` behaves as `cd`,
and `exit &` exits with code 0. -/
theorem c10_builtin_trailing_ampersand_witness :
    dispatch 0 0 ⟨[cdName, ['&']], [], [], []⟩ = dispatch 0 0 ⟨[cdName], [], [], []⟩ ∧
    dispatch 0 0 ⟨[exitName, ['&']], [], [], []⟩ = .ok ⟨.exitShell 0, false⟩ :=
  c10_builtin_trailing_ampersand 0 0 [] [] [] cdName [] (Or.inr (Or.inl rfl)) (by decide)

end Smallsh
